import Mathlib

/-!
# Category-board membership store (`server/services/store/sqlstore/category_boards.go`)

A shallow embedding of the `category_boards` persistence code.

* The table is a list of rows; every SQL statement is one atomic step on it.
* A statement's `Exec`/`Query` either fails (the table is left as it was) or
  takes effect; which one happens is an input, carried by `Backend` and
  `QueryBackend`.
* `utils.GetMillis()` and `utils.NewID` are inputs of a call. A call reads the
  clock at most twice (the INSERT reads it once for `create_at` and once more
  for `update_at`); `Backend.millis` is the first reading, `Backend.millis2` the
  second, and the two need not agree.
* A Go `error` result is an `Option StoreError` (`none` is `nil`); a Go
  `(value, error)` result is an `Except StoreError value`.
* The `s.logger.Error` calls have no effect on results or on the table and are
  left out.
-/

namespace Sqlstore

/-! ## Data model -/

/-- One row of the `category_boards` table, with the columns listed in the
`Columns(...)` call of `addUserCategoryBoard`. -/
structure CategoryBoardRow where
  id : String
  user_id : String
  category_id : String
  board_id : String
  create_at : Int
  update_at : Int
  delete_at : Int
deriving DecidableEq, Repr

/-- The `category_boards` table. New rows are appended. -/
abbrev Table := List CategoryBoardRow

/-- Errors a store operation can return: the package-level
`errDuplicateCategoryEntries`, or an error handed back by the SQL layer. -/
inductive StoreError where
  | errDuplicateCategoryEntries
  | backend (msg : String)
deriving DecidableEq, Repr

deriving instance DecidableEq for Except

/-- Environment of one mutating call: the clock, the identifier generator and
the outcome of each statement the call may execute (`none`: the statement
goes through, `some msg`: it returns an error). -/
structure Backend where
  /-- the value of the first `utils.GetMillis()` read of the call -/
  millis : Int
  /-- the value of the second `utils.GetMillis()` read of the call -/
  millis2 : Int
  /-- the value of `utils.NewID(utils.IDTypeNone)` -/
  newID : String
  /-- error of `Exec()` of the UPDATE in `updateUserCategoryBoard` -/
  updateExecErr : Option String
  /-- error of `result.RowsAffected()` in `updateUserCategoryBoard` -/
  rowsAffectedErr : Option String
  /-- error of `Exec()` of the INSERT in `addUserCategoryBoard` -/
  insertExecErr : Option String
  /-- error of `Exec()` of the UPDATE in `deleteUserCategoryBoard` -/
  deleteExecErr : Option String
deriving Repr

/-- The backend executes every statement without error. -/
def Backend.healthy (b : Backend) : Prop :=
  b.updateExecErr = none ∧ b.rowsAffectedErr = none ∧
    b.insertExecErr = none ∧ b.deleteExecErr = none

/-- Environment of one read: the outcome of `query.Query()` and of the
`rows.Scan` of the row at each position of the result. -/
structure QueryBackend where
  queryErr : Option String
  scanErr : Nat → Option String

/-- The backend answers the query and decodes every row. -/
def QueryBackend.healthy (q : QueryBackend) : Prop :=
  q.queryErr = none ∧ ∀ i, q.scanErr i = none

/-- A query backend that never fails. -/
def QueryBackend.ok : QueryBackend := ⟨none, fun _ => none⟩

/-! ## SQL statements

Modelled from the spec: the relational execution layer (squirrel over
`database/sql`) is not part of the source file. Section 6 of the spec describes
it as "UPDATE with SET + equality filters (returning affected-row count)" and
"INSERT with explicit column/value lists"; section 4.1 reads "zero rows were
affected" as "no prior mapping exists at all for this user/board", so the
affected-row count is the number of rows the WHERE clause matches. -/

/-- Modelled from the spec: `UPDATE category_boards SET ... WHERE ...`, the rows
satisfying `cond` are rewritten by `set`, all others are left alone. -/
def sqlUpdate (t : Table) (cond : CategoryBoardRow → Bool)
    (set : CategoryBoardRow → CategoryBoardRow) : Table :=
  t.map fun r => if cond r then set r else r

/-- Modelled from the spec: the affected-row count of an UPDATE, the number of
rows its WHERE clause matches. -/
def sqlRowsAffected (t : Table) (cond : CategoryBoardRow → Bool) : Int :=
  ((t.filter cond).length : Int)

/-- Modelled from the spec: `INSERT INTO category_boards (...) VALUES (...)`. -/
def sqlInsert (t : Table) (r : CategoryBoardRow) : Table :=
  t ++ [r]

/-- Modelled from the spec: `SELECT board_id FROM category_boards WHERE ...`. -/
def sqlSelectBoardID (t : Table) (cond : CategoryBoardRow → Bool) : List String :=
  (t.filter cond).map fun r => r.board_id

/-! ## The store functions -/

/-- WHERE clause of `updateUserCategoryBoard`:
`sq.Eq{"board_id": boardID, "user_id": userID}`. -/
def updateWhere (userID boardID : String) (r : CategoryBoardRow) : Bool :=
  decide (r.board_id = boardID) && decide (r.user_id = userID)

/-- SET clause of `updateUserCategoryBoard`:
`Set("category_id", categoryID).Set("delete_at", 0)`. -/
def updateSet (categoryID : String) (r : CategoryBoardRow) : CategoryBoardRow :=
  { r with category_id := categoryID, delete_at := 0 }

/-- WHERE clause of `deleteUserCategoryBoard`:
`sq.Eq{"user_id": userID, "board_id": boardID, "delete_at": 0}`. -/
def deleteWhere (userID boardID : String) (r : CategoryBoardRow) : Bool :=
  decide (r.user_id = userID) && decide (r.board_id = boardID) && decide (r.delete_at = 0)

/-- SET clause of `deleteUserCategoryBoard`: `Set("delete_at", utils.GetMillis())`. -/
def deleteSet (millis : Int) (r : CategoryBoardRow) : CategoryBoardRow :=
  { r with delete_at := millis }

/-- WHERE clause of `getCategoryBoardAttributes`:
`sq.Eq{"category_id": categoryID, "delete_at": 0}`. -/
def selectWhere (categoryID : String) (r : CategoryBoardRow) : Bool :=
  decide (r.category_id = categoryID) && decide (r.delete_at = 0)

/-- The loop of `categoryBoardsFromRows`: `i` is the position of the next row,
`blocks` the board IDs appended so far. A failing `rows.Scan` returns the error
and no list. -/
def categoryBoardsFromRowsLoop (q : QueryBackend) :
    Nat → List String → List String → Except StoreError (List String)
  | _, [], blocks => .ok blocks
  | i, boardID :: rest, blocks =>
    match q.scanErr i with
    | some err => .error (.backend err)
    | none => categoryBoardsFromRowsLoop q (i + 1) rest (blocks ++ [boardID])

/-- `categoryBoardsFromRows`: decodes the result rows into board IDs, starting
from `blocks := []string{}`. -/
def categoryBoardsFromRows (q : QueryBackend) (rows : List String) :
    Except StoreError (List String) :=
  categoryBoardsFromRowsLoop q 0 rows []

/-- `getCategoryBoardAttributes` (GetCategoryBoardIDs): the board IDs of the
active rows of a category. -/
def getCategoryBoardAttributes (q : QueryBackend) (t : Table) (categoryID : String) :
    Except StoreError (List String) :=
  match q.queryErr with
  | some err => .error (.backend err)
  | none => categoryBoardsFromRows q (sqlSelectBoardID t (selectWhere categoryID))

/-- `updateUserCategoryBoard`: returns `(rowsAffected, err)` and the table after
the call. When `Exec` fails nothing is written; when `RowsAffected` fails the
UPDATE has already been executed. -/
def updateUserCategoryBoard (b : Backend) (t : Table) (userID boardID categoryID : String) :
    Except StoreError Int × Table :=
  match b.updateExecErr with
  | some err => (.error (.backend err), t)
  | none =>
    let t1 := sqlUpdate t (updateWhere userID boardID) (updateSet categoryID)
    match b.rowsAffectedErr with
    | some err => (.error (.backend err), t1)
    | none => (.ok (sqlRowsAffected t (updateWhere userID boardID)), t1)

/-- `addUserCategoryBoard`: inserts a new row with a generated id and
`delete_at = 0`. The `Values(...)` arguments are evaluated in order, so
`create_at` is the first `utils.GetMillis()` reading and `update_at` the second. -/
def addUserCategoryBoard (b : Backend) (t : Table) (userID categoryID boardID : String) :
    Option StoreError × Table :=
  match b.insertExecErr with
  | some err => (some (.backend err), t)
  | none =>
    (none, sqlInsert t
      { id := b.newID, user_id := userID, category_id := categoryID, board_id := boardID,
        create_at := b.millis, update_at := b.millis2, delete_at := 0 })

/-- `deleteUserCategoryBoard` (RemoveBoardFromCategory): soft-deletes the active
rows of `(userID, boardID)`. -/
def deleteUserCategoryBoard (b : Backend) (t : Table) (userID boardID : String) :
    Option StoreError × Table :=
  match b.deleteExecErr with
  | some err => (some (.backend err), t)
  | none => (none, sqlUpdate t (deleteWhere userID boardID) (deleteSet b.millis))

/-- `addUpdateCategoryBoard` (AssignBoardToCategory). -/
def addUpdateCategoryBoard (b : Backend) (t : Table) (userID categoryID boardID : String) :
    Option StoreError × Table :=
  if categoryID = "0" then
    deleteUserCategoryBoard b t userID boardID
  else
    match updateUserCategoryBoard b t userID boardID categoryID with
    | (.error err, t1) => (some err, t1)
    | (.ok rowsAffected, t1) =>
      if rowsAffected > 1 then
        (some .errDuplicateCategoryEntries, t1)
      else if rowsAffected = 0 then
        addUserCategoryBoard b t1 userID categoryID boardID
      else
        (none, t1)

/-- Modelled from the spec: `model.Category` is declared outside this file. The
code reads its `ID` only and copies the value as a whole; `Name` stands for the
fields that are carried along unread. -/
structure Category where
  ID : String
  Name : String
deriving DecidableEq, Repr

/-- Modelled from the spec: `model.CategoryBoards`, declared outside this file,
with the two fields the composite literal in `getUserCategoryBoards` sets. -/
structure CategoryBoards where
  Category : Category
  BoardIDs : List String
deriving DecidableEq, Repr

/-- The `for _, category := range categories` loop of `getUserCategoryBoards`:
`i` is the number of board-ID lookups made so far (the `i`-th lookup runs
against `qs i`), `acc` is `userCategoryBoards`. -/
def getUserCategoryBoardsLoop (qs : Nat → QueryBackend) (t : Table) :
    Nat → List Category → List CategoryBoards → Except StoreError (List CategoryBoards)
  | _, [], acc => .ok acc
  | i, category :: rest, acc =>
    match getCategoryBoardAttributes (qs i) t category.ID with
    | .error err => .error err
    | .ok boardIDs =>
      getUserCategoryBoardsLoop qs t (i + 1) rest
        (acc ++ [{ Category := category, BoardIDs := boardIDs }])

/-- `getUserCategoryBoards` (ListUserCategoryBoards). `getUserCategories` stands
for `s.getUserCategories(db, userID, teamID)`, a function of another file of the
package, taken here as a parameter. -/
def getUserCategoryBoards
    (getUserCategories : String → String → Except StoreError (List Category))
    (qs : Nat → QueryBackend) (t : Table) (userID teamID : String) :
    Except StoreError (List CategoryBoards) :=
  match getUserCategories userID teamID with
  | .error err => .error err
  | .ok categories => getUserCategoryBoardsLoop qs t 0 categories []

/-! ## Sequences of calls -/

/-- A call of one of the two mutating operations. -/
inductive Call where
  | assign (userID categoryID boardID : String)
  | remove (userID boardID : String)
deriving Repr

/-- The table after one call executed against backend `b` (the returned error
is dropped, what was written stays written). -/
def runCall (t : Table) (bc : Backend × Call) : Table :=
  match bc.2 with
  | .assign userID categoryID boardID => (addUpdateCategoryBoard bc.1 t userID categoryID boardID).2
  | .remove userID boardID => (deleteUserCategoryBoard bc.1 t userID boardID).2

/-- The table after a sequence of calls, each with its own backend behaviour. -/
def runCalls (t : Table) (calls : List (Backend × Call)) : Table :=
  calls.foldl runCall t

/-! ## Predicates used in the statements -/

/-- The row belongs to the pair `(userID, boardID)`. -/
def isPair (userID boardID : String) (r : CategoryBoardRow) : Bool :=
  decide (r.user_id = userID) && decide (r.board_id = boardID)

/-- The row belongs to the pair and is active (`delete_at == 0`). -/
def isActivePair (userID boardID : String) (r : CategoryBoardRow) : Bool :=
  isPair userID boardID r && decide (r.delete_at = 0)

/-- The row belongs to the pair and is soft-deleted (`delete_at != 0`). -/
def isDeletedPair (userID boardID : String) (r : CategoryBoardRow) : Bool :=
  isPair userID boardID r && decide (r.delete_at ≠ 0)

/-- Number of rows (active or not) of a pair. -/
def pairCount (userID boardID : String) (t : Table) : Nat :=
  (t.filter (isPair userID boardID)).length

/-- Number of active rows of a pair. -/
def activeCount (userID boardID : String) (t : Table) : Nat :=
  (t.filter (isActivePair userID boardID)).length

/-- Number of soft-deleted rows of a pair. -/
def deletedCount (userID boardID : String) (t : Table) : Nat :=
  (t.filter (isDeletedPair userID boardID)).length

/-- The row a successful INSERT of `addUserCategoryBoard` writes. -/
def newRow (b : Backend) (userID categoryID boardID : String) : CategoryBoardRow :=
  { id := b.newID, user_id := userID, category_id := categoryID, board_id := boardID,
    create_at := b.millis, update_at := b.millis2, delete_at := 0 }

/-- The row is selected by `getCategoryBoardAttributes` for the category and
carries the given board. -/
def selectsBoard (categoryID boardID : String) (r : CategoryBoardRow) : Bool :=
  selectWhere categoryID r && decide (r.board_id = boardID)

/-- A backend on which nothing fails, whose clock stays at `millis` during the
call, with `newID` as the next generated identifier. -/
def Backend.ok (millis : Int) (newID : String) : Backend :=
  { millis := millis, millis2 := millis, newID := newID, updateExecErr := none,
    rowsAffectedErr := none, insertExecErr := none, deleteExecErr := none }

/-- A backend on which nothing fails, whose clock advances by one millisecond
between the first and the second reading of the call. -/
def Backend.ticking (millis : Int) (newID : String) : Backend :=
  { millis := millis, millis2 := millis + 1, newID := newID, updateExecErr := none,
    rowsAffectedErr := none, insertExecErr := none, deleteExecErr := none }

/-! ## Concrete tables used as test inputs -/

/-- Two active rows of the pair ("u1", "b1"), as a duplicate written directly at
the backend would leave them. -/
def dupTable : Table :=
  [ { id := "r1", user_id := "u1", category_id := "c1", board_id := "b1",
      create_at := 10, update_at := 10, delete_at := 0 },
    { id := "r2", user_id := "u1", category_id := "c2", board_id := "b1",
      create_at := 20, update_at := 20, delete_at := 0 },
    { id := "r3", user_id := "u2", category_id := "c9", board_id := "b1",
      create_at := 30, update_at := 30, delete_at := 0 } ]

/-- Two soft-deleted rows of the pair ("u1", "b1") and no active one. -/
def tombstoneTable : Table :=
  [ { id := "r1", user_id := "u1", category_id := "c1", board_id := "b1",
      create_at := 10, update_at := 10, delete_at := 40 },
    { id := "r2", user_id := "u1", category_id := "c2", board_id := "b1",
      create_at := 20, update_at := 20, delete_at := 45 } ]

/-- One active row of ("u1", "b1") among rows of other pairs. -/
def oneRowTable : Table :=
  [ { id := "r0", user_id := "u2", category_id := "c7", board_id := "b1",
      create_at := 5, update_at := 5, delete_at := 0 },
    { id := "r1", user_id := "u1", category_id := "c1", board_id := "b1",
      create_at := 10, update_at := 10, delete_at := 0 },
    { id := "r2", user_id := "u1", category_id := "c1", board_id := "b2",
      create_at := 20, update_at := 20, delete_at := 0 } ]

/-- One soft-deleted and one active row of the pair ("u1", "b1"). -/
def mixedTable : Table :=
  [ { id := "r1", user_id := "u1", category_id := "c1", board_id := "b1",
      create_at := 10, update_at := 10, delete_at := 40 },
    { id := "r2", user_id := "u1", category_id := "c2", board_id := "b1",
      create_at := 20, update_at := 20, delete_at := 0 } ]

/-- Board "b1" filed under "c1" by user "u2". -/
def otherUserTable : Table :=
  [ { id := "r0", user_id := "u2", category_id := "c1", board_id := "b1",
      create_at := 5, update_at := 5, delete_at := 0 } ]

/-- Two categories, in the order the category store returned them. -/
def twoCategories : List Category :=
  [ { ID := "c2", Name := "Archived" }, { ID := "c1", Name := "Favorites" } ]

/-- A query backend whose `Query()` fails. -/
def QueryBackend.down (msg : String) : QueryBackend := ⟨some msg, fun _ => none⟩

end Sqlstore

namespace Sqlstore

/-! ## Basic facts about the statements -/

theorem updateWhere_eq_isPair (U B : String) (r : CategoryBoardRow) :
    updateWhere U B r = isPair U B r := by
  simp [updateWhere, isPair, Bool.and_comm]

theorem deleteWhere_eq_isActivePair (U B : String) (r : CategoryBoardRow) :
    deleteWhere U B r = isActivePair U B r := by
  simp [deleteWhere, isActivePair, isPair]

theorem sqlUpdate_length (t : Table) (c : CategoryBoardRow → Bool)
    (f : CategoryBoardRow → CategoryBoardRow) : (sqlUpdate t c f).length = t.length := by
  simp [sqlUpdate]

/-- A filter that cannot see what an UPDATE writes commutes with the UPDATE. -/
theorem filter_sqlUpdate (t : Table) (c p : CategoryBoardRow → Bool)
    (f : CategoryBoardRow → CategoryBoardRow) (h : ∀ r, p (f r) = p r) :
    (sqlUpdate t c f).filter p = sqlUpdate (t.filter p) c f := by
  induction t with
  | nil => rfl
  | cons r t ih =>
    have ih2 : List.filter p (List.map (fun r => if c r = true then f r else r) t)
        = List.map (fun r => if c r = true then f r else r) (List.filter p t) := ih
    by_cases hc : c r = true <;> by_cases hp : p r = true <;>
      simp [sqlUpdate, List.filter_cons, hc, hp, h, ih2]

theorem isPair_updateSet (U B C : String) (r : CategoryBoardRow) :
    isPair U B (updateSet C r) = isPair U B r := rfl

theorem isPair_deleteSet (U B : String) (m : Int) (r : CategoryBoardRow) :
    isPair U B (deleteSet m r) = isPair U B r := rfl

theorem pairCount_sqlUpdate (U B : String) (t : Table) (c : CategoryBoardRow → Bool)
    (f : CategoryBoardRow → CategoryBoardRow) (h : ∀ r, isPair U B (f r) = isPair U B r) :
    pairCount U B (sqlUpdate t c f) = pairCount U B t := by
  unfold pairCount
  rw [filter_sqlUpdate t c _ f h, sqlUpdate_length]

theorem sqlRowsAffected_updateWhere (U B : String) (t : Table) :
    sqlRowsAffected t (updateWhere U B) = (pairCount U B t : Int) := by
  unfold sqlRowsAffected pairCount
  have : updateWhere U B = isPair U B := funext (updateWhere_eq_isPair U B)
  rw [this]

/-- The branches of `addUpdateCategoryBoard` for a category other than "0", with
the affected-row count written as the number of rows of the pair. -/
theorem addUpdate_unfold (b : Backend) (t : Table) (U C B : String) (hC : C ≠ "0") :
    addUpdateCategoryBoard b t U C B =
      match b.updateExecErr with
      | some e => (some (.backend e), t)
      | none =>
        match b.rowsAffectedErr with
        | some e => (some (.backend e), sqlUpdate t (updateWhere U B) (updateSet C))
        | none =>
          if pairCount U B t > 1 then
            (some .errDuplicateCategoryEntries, sqlUpdate t (updateWhere U B) (updateSet C))
          else if pairCount U B t = 0 then
            match b.insertExecErr with
            | some e => (some (.backend e), sqlUpdate t (updateWhere U B) (updateSet C))
            | none => (none, sqlUpdate t (updateWhere U B) (updateSet C) ++ [newRow b U C B])
          else (none, sqlUpdate t (updateWhere U B) (updateSet C)) := by
  unfold addUpdateCategoryBoard updateUserCategoryBoard
  rw [if_neg hC]
  cases h1 : b.updateExecErr with
  | some e => rfl
  | none =>
    cases h2 : b.rowsAffectedErr with
    | some e => rfl
    | none =>
      simp only [sqlRowsAffected_updateWhere]
      by_cases h3 : pairCount U B t > 1
      · have : ((pairCount U B t : Nat) : Int) > 1 := by omega
        simp [h3, this]
      · have h3i : ¬ ((pairCount U B t : Nat) : Int) > 1 := by omega
        by_cases h4 : pairCount U B t = 0
        · cases h5 : b.insertExecErr <;>
            simp [h4, addUserCategoryBoard, h5, sqlInsert, newRow]
        · have h4i : ¬ ((pairCount U B t : Nat) : Int) = 0 := by omega
          simp [h3, h3i, h4, h4i]

/-! ## At most one row per pair -/

theorem pairCount_append_single (U B : String) (t : Table) (r : CategoryBoardRow) :
    pairCount U B (t ++ [r]) = pairCount U B t + (if isPair U B r then 1 else 0) := by
  unfold pairCount
  by_cases h : isPair U B r = true <;> simp [List.filter_append, List.filter_cons, h]

theorem pairCount_update (U B U2 B2 C : String) (t : Table) :
    pairCount U2 B2 (sqlUpdate t (updateWhere U B) (updateSet C)) = pairCount U2 B2 t :=
  pairCount_sqlUpdate U2 B2 t _ _ (isPair_updateSet U2 B2 C)

theorem pairCount_delete (b : Backend) (U B U2 B2 : String) (t : Table) :
    pairCount U2 B2 (deleteUserCategoryBoard b t U B).2 = pairCount U2 B2 t := by
  unfold deleteUserCategoryBoard
  cases b.deleteExecErr with
  | some e => rfl
  | none => exact pairCount_sqlUpdate U2 B2 t _ _ (isPair_deleteSet U2 B2 b.millis)

theorem isPair_newRow (b : Backend) (U C B U2 B2 : String) :
    isPair U2 B2 (newRow b U C B) = true ↔ U = U2 ∧ B = B2 := by
  simp [isPair, newRow]

/-- One call keeps "every pair has at most one row". -/
theorem pairCount_addUpdate_le (b : Backend) (t : Table) (U C B : String)
    (h : ∀ U2 B2, pairCount U2 B2 t ≤ 1) (U2 B2 : String) :
    pairCount U2 B2 (addUpdateCategoryBoard b t U C B).2 ≤ 1 := by
  by_cases hC : C = "0"
  · have : addUpdateCategoryBoard b t U C B = deleteUserCategoryBoard b t U B := by
      unfold addUpdateCategoryBoard; rw [if_pos hC]
    rw [this, pairCount_delete]; exact h U2 B2
  · rw [addUpdate_unfold b t U C B hC]
    cases b.updateExecErr with
    | some e => exact h U2 B2
    | none =>
      cases b.rowsAffectedErr with
      | some e => simp only [pairCount_update]; exact h U2 B2
      | none =>
        by_cases h3 : pairCount U B t > 1
        · simp only [if_pos h3, pairCount_update]; exact h U2 B2
        · by_cases h4 : pairCount U B t = 0
          · cases b.insertExecErr with
            | some e => simp only [if_neg h3, if_pos h4, pairCount_update]; exact h U2 B2
            | none =>
              simp only [if_neg h3, if_pos h4, pairCount_append_single, pairCount_update]
              by_cases hp : isPair U2 B2 (newRow b U C B) = true
              · obtain ⟨rfl, rfl⟩ := (isPair_newRow b U C B U2 B2).1 hp
                simp [hp, h4]
              · simp only [hp]; have := h U2 B2; simpa using this
          · simp only [if_neg h3, if_neg h4, pairCount_update]; exact h U2 B2

theorem pairCount_runCall_le (t : Table) (bc : Backend × Call)
    (h : ∀ U2 B2, pairCount U2 B2 t ≤ 1) (U2 B2 : String) :
    pairCount U2 B2 (runCall t bc) ≤ 1 := by
  obtain ⟨b, c⟩ := bc
  cases c with
  | assign U C B => exact pairCount_addUpdate_le b t U C B h U2 B2
  | remove U B =>
    show pairCount U2 B2 (deleteUserCategoryBoard b t U B).2 ≤ 1
    rw [pairCount_delete]; exact h U2 B2

theorem pairCount_runCalls_le (calls : List (Backend × Call)) (t : Table)
    (h : ∀ U2 B2, pairCount U2 B2 t ≤ 1) (U2 B2 : String) :
    pairCount U2 B2 (runCalls t calls) ≤ 1 := by
  induction calls generalizing t with
  | nil => exact h U2 B2
  | cons c cs ih => exact ih (runCall t c) (pairCount_runCall_le t c h)

theorem activeCount_le_pairCount (U B : String) (t : Table) :
    activeCount U B t ≤ pairCount U B t := by
  unfold activeCount pairCount
  induction t with
  | nil => simp
  | cons r t ih =>
    by_cases h1 : isPair U B r = true <;> by_cases h2 : r.delete_at = 0 <;>
      simp [List.filter_cons, isActivePair, h1, h2] <;>
      simp [isActivePair] at ih <;> omega

/-- C8: starting from the empty table, after any finite sequence of
AssignBoardToCategory and RemoveBoardFromCategory calls (any arguments, every
statement either failing without effect or taking effect), every
`(user_id, board_id)` pair has at most one active row. -/
theorem at_most_one_active_after_calls (calls : List (Backend × Call)) (U B : String) :
    activeCount U B (runCalls [] calls) ≤ 1 :=
  Nat.le_trans (activeCount_le_pairCount U B _)
    (pairCount_runCalls_le calls [] (fun _ _ => by simp [pairCount]) U B)

/-! ## Row-by-row view of an UPDATE -/

theorem sqlUpdate_getElem? (t : Table) (c : CategoryBoardRow → Bool)
    (f : CategoryBoardRow → CategoryBoardRow) (i : Nat) :
    (sqlUpdate t c f)[i]? = (t[i]?).map (fun r => if c r then f r else r) := by
  simp [sqlUpdate]

theorem sqlUpdate_getElem?_of_not (t : Table) (c : CategoryBoardRow → Bool)
    (f : CategoryBoardRow → CategoryBoardRow) (i : Nat) (r : CategoryBoardRow)
    (hr : t[i]? = some r) (hc : c r = false) : (sqlUpdate t c f)[i]? = some r := by
  rw [sqlUpdate_getElem?, hr]; simp [hc]

theorem sqlUpdate_getElem?_of_pos (t : Table) (c : CategoryBoardRow → Bool)
    (f : CategoryBoardRow → CategoryBoardRow) (i : Nat) (r : CategoryBoardRow)
    (hr : t[i]? = some r) (hc : c r = true) : (sqlUpdate t c f)[i]? = some (f r) := by
  rw [sqlUpdate_getElem?, hr]; simp [hc]

/-- An UPDATE whose WHERE clause matches no row leaves the table as it is. -/
theorem sqlUpdate_of_filter_nil (t : Table) (c : CategoryBoardRow → Bool)
    (f : CategoryBoardRow → CategoryBoardRow) (h : t.filter c = []) : sqlUpdate t c f = t := by
  induction t with
  | nil => rfl
  | cons r t ih =>
    by_cases hc : c r = true
    · simp [List.filter_cons, hc] at h
    · simp only [List.filter_cons, hc] at h
      have := ih h
      simp only [sqlUpdate] at this ⊢
      simp [hc, this]

/-- When exactly one row passes a filter, it sits at one position and every
other position holds a row that does not pass. -/
theorem exists_unique_index_of_filter_length_one (t : Table) (p : CategoryBoardRow → Bool)
    (h : (t.filter p).length = 1) :
    ∃ i r, t[i]? = some r ∧ p r = true ∧
      ∀ (j : Nat) (r2 : CategoryBoardRow), j ≠ i → t[j]? = some r2 → p r2 = false := by
  induction t with
  | nil => simp at h
  | cons a t ih =>
    by_cases hp : p a = true
    · have hnil : t.filter p = [] := by
        simp only [List.filter_cons, hp, if_true, List.length_cons] at h
        exact List.length_eq_zero.1 (by omega)
      refine ⟨0, a, by simp, hp, ?_⟩
      intro j r2 hj hr2
      cases j with
      | zero => exact absurd rfl hj
      | succ k =>
        simp only [List.getElem?_cons_succ] at hr2
        have hmem : r2 ∈ t := List.getElem?_mem hr2
        by_contra hcon
        have : r2 ∈ t.filter p := List.mem_filter.2 ⟨hmem, by simpa using hcon⟩
        rw [hnil] at this
        exact absurd this (List.not_mem_nil _)
    · have hp2 : p a = false := by simpa using hp
      simp only [List.filter_cons, hp2] at h
      obtain ⟨i, r, hi, hr, hrest⟩ := ih (by simpa using h)
      refine ⟨i + 1, r, by simpa using hi, hr, ?_⟩
      intro j r2 hj hr2
      cases j with
      | zero =>
        simp only [List.getElem?_cons_zero, Option.some.injEq] at hr2
        rw [← hr2]; exact hp2
      | succ k =>
        simp only [List.getElem?_cons_succ] at hr2
        exact hrest k r2 (by omega) hr2

/-- When exactly one row passes a filter, the filter returns that row. -/
theorem filter_eq_singleton_of_length_one (t : Table) (p : CategoryBoardRow → Bool)
    (h : (t.filter p).length = 1) : ∃ r, t.filter p = [r] := by
  match hf : t.filter p with
  | [] => rw [hf] at h; simp at h
  | [r] => exact ⟨r, rfl⟩
  | _ :: _ :: _ => rw [hf] at h; simp at h

/-! ## Sentinel, duplicates, frame -/

theorem deleteUserCategoryBoard_length (b : Backend) (t : Table) (U B : String) :
    (deleteUserCategoryBoard b t U B).2.length = t.length := by
  unfold deleteUserCategoryBoard
  cases b.deleteExecErr with
  | some e => rfl
  | none => exact sqlUpdate_length _ _ _

theorem deleteUserCategoryBoard_category (b : Backend) (t : Table) (U B : String) :
    (deleteUserCategoryBoard b t U B).2.map (fun r => r.category_id)
      = t.map (fun r => r.category_id) := by
  unfold deleteUserCategoryBoard
  cases b.deleteExecErr with
  | some e => rfl
  | none =>
    simp only [sqlUpdate, List.map_map]
    apply List.map_congr_left
    intro r _
    by_cases h : deleteWhere U B r = true <;> simp [h, deleteSet]

/-- C5: AssignBoardToCategory(U, "0", B) is RemoveBoardFromCategory(U, B): on the
same table and backend both return the same error value and the same table; the
table keeps its number of rows and every row keeps its category_id. -/
theorem assign_zero_is_remove (b : Backend) (t : Table) (U B : String) :
    addUpdateCategoryBoard b t U "0" B = deleteUserCategoryBoard b t U B ∧
    (addUpdateCategoryBoard b t U "0" B).2.length = t.length ∧
    (addUpdateCategoryBoard b t U "0" B).2.map (fun r => r.category_id)
      = t.map (fun r => r.category_id) := by
  have h : addUpdateCategoryBoard b t U "0" B = deleteUserCategoryBoard b t U B := by
    unfold addUpdateCategoryBoard; rw [if_pos rfl]
  refine ⟨h, ?_, ?_⟩
  · rw [h]; exact deleteUserCategoryBoard_length b t U B
  · rw [h]; exact deleteUserCategoryBoard_category b t U B

/-- C7: on a table with two or more active rows for `(U, B)`, with a category
other than "0" and a backend that does not fail, AssignBoardToCategory returns
errDuplicateCategoryEntries, leaves the number of rows unchanged, and every row
that is not a row of `(U, B)` is the same row at the same position afterwards. -/
theorem duplicate_active_rows_rejected (b : Backend) (t : Table) (U C B : String)
    (hC : C ≠ "0") (hb : b.healthy) (hdup : 2 ≤ activeCount U B t) :
    (addUpdateCategoryBoard b t U C B).1 = some StoreError.errDuplicateCategoryEntries ∧
    (addUpdateCategoryBoard b t U C B).2.length = t.length ∧
    ∀ (i : Nat) (r : CategoryBoardRow), t[i]? = some r →
      ¬ (r.user_id = U ∧ r.board_id = B) → (addUpdateCategoryBoard b t U C B).2[i]? = some r := by
  obtain ⟨h1, h2, -, -⟩ := hb
  have hcount : pairCount U B t > 1 := by
    have := activeCount_le_pairCount U B t; omega
  have key : addUpdateCategoryBoard b t U C B
      = (some StoreError.errDuplicateCategoryEntries,
          sqlUpdate t (updateWhere U B) (updateSet C)) := by
    rw [addUpdate_unfold b t U C B hC, h1, h2]
    simp only [if_pos hcount]
  rw [key]
  refine ⟨rfl, sqlUpdate_length _ _ _, ?_⟩
  intro i r hr hne
  apply sqlUpdate_getElem?_of_not t _ _ i r hr
  simp only [updateWhere, Bool.and_eq_false_iff, decide_eq_false_iff_not]
  by_cases hB : r.board_id = B
  · right; intro hU; exact hne ⟨hU, hB⟩
  · left; exact hB

theorem duplicate_active_rows_rejected_witness :
    ("c3" : String) ≠ "0" ∧ (Backend.ok 50 "n1").healthy ∧ 2 ≤ activeCount "u1" "b1" dupTable ∧
    (addUpdateCategoryBoard (Backend.ok 50 "n1") dupTable "u1" "c3" "b1").1
      = some StoreError.errDuplicateCategoryEntries :=
  ⟨by decide, ⟨rfl, rfl, rfl, rfl⟩, by decide,
    (duplicate_active_rows_rejected (Backend.ok 50 "n1") dupTable "u1" "c3" "b1"
      (by decide) ⟨rfl, rfl, rfl, rfl⟩ (by decide)).1⟩

/-- C9 (amended): a successful AssignBoardToCategory(U, C, B) with C other than
"0" either appends exactly one new row (user U, category C, board B, delete_at
0, create_at the first and update_at the second reading of the clock taken by
the call, equal whenever the two readings agree) and leaves every earlier row as
it was, or adds no row and rewrites exactly one position, holding a row of
`(U, B)`, to category C and delete_at 0, every other position keeping its row. -/
theorem successful_assign_frame (b : Backend) (t : Table) (U C B : String)
    (hC : C ≠ "0") (hok : (addUpdateCategoryBoard b t U C B).1 = none) :
    (∃ r : CategoryBoardRow, (addUpdateCategoryBoard b t U C B).2 = t ++ [r] ∧
        r.id = b.newID ∧ r.user_id = U ∧ r.category_id = C ∧ r.board_id = B ∧
        r.delete_at = 0 ∧ r.create_at = b.millis ∧ r.update_at = b.millis2 ∧
        (b.millis2 = b.millis → r.create_at = r.update_at)) ∨
    ((addUpdateCategoryBoard b t U C B).2.length = t.length ∧
      ∃ (i : Nat) (r : CategoryBoardRow), t[i]? = some r ∧ r.user_id = U ∧ r.board_id = B ∧
        (addUpdateCategoryBoard b t U C B).2[i]?
          = some { r with category_id := C, delete_at := 0 } ∧
        ∀ j : Nat, j ≠ i → (addUpdateCategoryBoard b t U C B).2[j]? = t[j]?) := by
  have key := addUpdate_unfold b t U C B hC
  cases h1 : b.updateExecErr with
  | some e => rw [key, h1] at hok; simp at hok
  | none =>
    cases h2 : b.rowsAffectedErr with
    | some e => rw [key, h1, h2] at hok; simp at hok
    | none =>
      by_cases h3 : pairCount U B t > 1
      · rw [key, h1, h2] at hok; simp [h3] at hok
      · by_cases h4 : pairCount U B t = 0
        · cases h5 : b.insertExecErr with
          | some e => rw [key, h1, h2, h5] at hok; simp [h3, h4] at hok
          | none =>
            left
            have hnil : t.filter (updateWhere U B) = [] := by
              have : updateWhere U B = isPair U B := funext (updateWhere_eq_isPair U B)
              rw [this]; exact List.length_eq_zero.1 h4
            have hres : addUpdateCategoryBoard b t U C B = (none, t ++ [newRow b U C B]) := by
              rw [key, h1, h2, h5]
              simp only [if_neg h3, if_pos h4, sqlUpdate_of_filter_nil t _ _ hnil]
            rw [hres]
            exact ⟨newRow b U C B, rfl, rfl, rfl, rfl, rfl, rfl, rfl, rfl,
              fun h => h.symm⟩
        · right
          have hres : addUpdateCategoryBoard b t U C B
              = (none, sqlUpdate t (updateWhere U B) (updateSet C)) := by
            rw [key, h1, h2]
            simp only [if_neg h3, if_neg h4]
          rw [hres]
          refine ⟨sqlUpdate_length _ _ _, ?_⟩
          have hone : (t.filter (updateWhere U B)).length = 1 := by
            have : updateWhere U B = isPair U B := funext (updateWhere_eq_isPair U B)
            rw [this]; unfold pairCount at h3 h4; omega
          obtain ⟨i, r, hi, hr, hrest⟩ :=
            exists_unique_index_of_filter_length_one t (updateWhere U B) hone
          have hr2 : r.board_id = B ∧ r.user_id = U := by
            simpa [updateWhere] using hr
          refine ⟨i, r, hi, hr2.2, hr2.1, sqlUpdate_getElem?_of_pos t _ _ i r hi hr, ?_⟩
          intro j hj
          cases hj2 : t[j]? with
          | none => simp [sqlUpdate_getElem?, hj2]
          | some r2 => exact sqlUpdate_getElem?_of_not t _ _ j r2 hj2 (hrest j r2 hj hj2)

theorem successful_assign_frame_witness :
    (("c3" : String) ≠ "0" ∧
      (addUpdateCategoryBoard (Backend.ticking 50 "n1") otherUserTable "u1" "c3" "b1").1
        = none ∧
      ∃ r : CategoryBoardRow,
        (addUpdateCategoryBoard (Backend.ticking 50 "n1") otherUserTable "u1" "c3" "b1").2
          = otherUserTable ++ [r] ∧
        r.id = "n1" ∧ r.user_id = "u1" ∧ r.category_id = "c3" ∧ r.board_id = "b1" ∧
        r.delete_at = 0 ∧ r.create_at = 50 ∧ r.update_at = 51) ∧
    ((addUpdateCategoryBoard (Backend.ok 50 "n1") oneRowTable "u1" "c3" "b1").1 = none ∧
      (addUpdateCategoryBoard (Backend.ok 50 "n1") oneRowTable "u1" "c3" "b1").2.length
        = oneRowTable.length) :=
  ⟨⟨by decide, by decide,
      ((successful_assign_frame (Backend.ticking 50 "n1") otherUserTable "u1" "c3" "b1"
        (by decide) (by decide)).resolve_right (fun h => absurd h.1 (by decide))).imp
        (fun _ h => ⟨h.1, h.2.1, h.2.2.1, h.2.2.2.1, h.2.2.2.2.1, h.2.2.2.2.2.1,
          h.2.2.2.2.2.2.1, h.2.2.2.2.2.2.2.1⟩)⟩,
    ⟨by decide,
      ((successful_assign_frame (Backend.ok 50 "n1") oneRowTable "u1" "c3" "b1"
        (by decide) (by decide)).resolve_left (by
          rintro ⟨r, h, -⟩
          have hlen := congrArg List.length h
          rw [List.length_append, List.length_singleton] at hlen
          revert hlen
          decide)).1⟩⟩

/-- C9 as stated fails: with the clock at 50 for the first reading and at 51 for
the second, a successful assignment of "b1" to "c3" for "u1", who has no row for
that board, appends a row whose create_at is 50 and whose update_at is 51; the
two are not one and the same current time. -/
theorem inserted_row_has_two_clock_readings :
    ("c3" : String) ≠ "0" ∧
    addUpdateCategoryBoard (Backend.ticking 50 "n1") otherUserTable "u1" "c3" "b1"
      = (none,
        [ { id := "r0", user_id := "u2", category_id := "c1", board_id := "b1",
            create_at := 5, update_at := 5, delete_at := 0 },
          { id := "n1", user_id := "u1", category_id := "c3", board_id := "b1",
            create_at := 50, update_at := 51, delete_at := 0 } ]) ∧
    (50 : Int) ≠ 51 := by
  decide

/-! ## What a returned error or a success says about the table -/

theorem updateWhere_funext (U B : String) : updateWhere U B = isPair U B :=
  funext (updateWhere_eq_isPair U B)

/-- The duplicate error is returned only from the `rowsAffected > 1` branch. -/
theorem pairCount_of_duplicate_error (b : Backend) (t : Table) (U C B : String)
    (hC : C ≠ "0")
    (herr : (addUpdateCategoryBoard b t U C B).1 = some StoreError.errDuplicateCategoryEntries) :
    1 < pairCount U B t := by
  rw [addUpdate_unfold b t U C B hC] at herr
  by_contra hcon
  cases h1 : b.updateExecErr with
  | some e => rw [h1] at herr; simp at herr
  | none =>
    cases h2 : b.rowsAffectedErr with
    | some e => rw [h1, h2] at herr; simp at herr
    | none =>
      rw [h1, h2] at herr
      simp only [gt_iff_lt, if_neg hcon] at herr
      by_cases h4 : pairCount U B t = 0
      · cases h5 : b.insertExecErr <;> simp [h4, h5] at herr
      · simp [h4] at herr

/-- A successful assignment to a category other than "0" took one of two paths:
no row of the pair existed and one was appended, or exactly one existed and the
UPDATE rewrote it. -/
theorem assign_success_cases (b : Backend) (t : Table) (U C B : String)
    (hC : C ≠ "0") (hok : (addUpdateCategoryBoard b t U C B).1 = none) :
    (pairCount U B t = 0 ∧ (addUpdateCategoryBoard b t U C B).2 = t ++ [newRow b U C B]) ∨
    (pairCount U B t = 1 ∧
      (addUpdateCategoryBoard b t U C B).2 = sqlUpdate t (updateWhere U B) (updateSet C)) := by
  have key := addUpdate_unfold b t U C B hC
  cases h1 : b.updateExecErr with
  | some e => rw [key, h1] at hok; simp at hok
  | none =>
    cases h2 : b.rowsAffectedErr with
    | some e => rw [key, h1, h2] at hok; simp at hok
    | none =>
      by_cases h3 : pairCount U B t > 1
      · rw [key, h1, h2] at hok; simp [h3] at hok
      · by_cases h4 : pairCount U B t = 0
        · cases h5 : b.insertExecErr with
          | some e => rw [key, h1, h2, h5] at hok; simp [h3, h4] at hok
          | none =>
            left
            have hnil : t.filter (updateWhere U B) = [] := by
              rw [updateWhere_funext]; exact List.length_eq_zero.1 h4
            refine ⟨h4, ?_⟩
            rw [key, h1, h2, h5]
            simp only [if_neg h3, if_pos h4, sqlUpdate_of_filter_nil t _ _ hnil]
        · right
          refine ⟨by omega, ?_⟩
          rw [key, h1, h2]
          simp only [if_neg h3, if_neg h4]

/-- With exactly one row of the pair and an UPDATE that goes through, the
assignment succeeds through the UPDATE alone. -/
theorem assign_of_one_row (b : Backend) (t : Table) (U C B : String)
    (hC : C ≠ "0") (hu : b.updateExecErr = none) (hr : b.rowsAffectedErr = none)
    (hone : pairCount U B t = 1) :
    addUpdateCategoryBoard b t U C B = (none, sqlUpdate t (updateWhere U B) (updateSet C)) := by
  rw [addUpdate_unfold b t U C B hC, hu, hr]
  have h3 : ¬ pairCount U B t > 1 := by omega
  have h4 : ¬ pairCount U B t = 0 := by omega
  simp only [if_neg h3, if_neg h4]

/-- C6 (amended): when AssignBoardToCategory(U, C, B), C other than "0", returns
errDuplicateCategoryEntries, the table held more than one row for `(U, B)` before
the call, counting active and soft-deleted rows alike. -/
theorem duplicate_error_means_several_rows (b : Backend) (t : Table) (U C B : String)
    (hC : C ≠ "0")
    (herr : (addUpdateCategoryBoard b t U C B).1 = some StoreError.errDuplicateCategoryEntries) :
    1 < (t.filter (fun r => decide (r.user_id = U) && decide (r.board_id = B))).length :=
  pairCount_of_duplicate_error b t U C B hC herr

theorem duplicate_error_means_several_rows_witness :
    ("c3" : String) ≠ "0" ∧
    (addUpdateCategoryBoard (Backend.ok 50 "n1") tombstoneTable "u1" "c3" "b1").1
      = some StoreError.errDuplicateCategoryEntries ∧
    1 < (tombstoneTable.filter
      (fun r => decide (r.user_id = "u1") && decide (r.board_id = "b1"))).length :=
  ⟨by decide, by decide,
    duplicate_error_means_several_rows (Backend.ok 50 "n1") tombstoneTable "u1" "c3" "b1"
      (by decide) (by decide)⟩

/-- C6 as stated fails: on two soft-deleted rows of ("u1", "b1") the call returns
errDuplicateCategoryEntries although the pair has no active row at all, let alone
more than one. -/
theorem duplicate_error_without_active_rows :
    ("c3" : String) ≠ "0" ∧
    (addUpdateCategoryBoard (Backend.ok 50 "n1") tombstoneTable "u1" "c3" "b1").1
      = some StoreError.errDuplicateCategoryEntries ∧
    (tombstoneTable.filter
      (fun r => decide (r.user_id = "u1") && decide (r.board_id = "b1")
        && decide (r.delete_at = 0))).length = 0 ∧
    ¬ (1 < activeCount "u1" "b1" tombstoneTable) := by
  decide

/-! ## Remove, then assign again -/

theorem delete_of_exec_ok (b : Backend) (t : Table) (U B : String)
    (hd : b.deleteExecErr = none) :
    deleteUserCategoryBoard b t U B
      = (none, sqlUpdate t (deleteWhere U B) (deleteSet b.millis)) := by
  unfold deleteUserCategoryBoard; rw [hd]

theorem isPair_of_filter_singleton (t : Table) (U B : String) (r : CategoryBoardRow)
    (hrow : t.filter (isPair U B) = [r]) : isPair U B r = true := by
  have : r ∈ t.filter (isPair U B) := by rw [hrow]; exact List.mem_singleton.2 rfl
  exact (List.mem_filter.1 this).2

/-- The soft-delete followed by the re-assignment, seen on the rows of the pair:
the one row of the pair gets the new category and `delete_at = 0`, every other
column keeps its value; both calls return no error and no row is added. -/
theorem remove_then_assign_pair_row (b1 b2 : Backend) (t : Table) (U C B : String)
    (r : CategoryBoardRow) (hC : C ≠ "0") (hrow : t.filter (isPair U B) = [r])
    (hd : b1.deleteExecErr = none) (hu : b2.updateExecErr = none)
    (hra : b2.rowsAffectedErr = none) :
    (deleteUserCategoryBoard b1 t U B).1 = none ∧
    (addUpdateCategoryBoard b2 (deleteUserCategoryBoard b1 t U B).2 U C B).1 = none ∧
    (addUpdateCategoryBoard b2 (deleteUserCategoryBoard b1 t U B).2 U C B).2.length
      = t.length ∧
    (addUpdateCategoryBoard b2 (deleteUserCategoryBoard b1 t U B).2 U C B).2.filter (isPair U B)
      = [{ r with category_id := C, delete_at := 0 }] := by
  have hdel := delete_of_exec_ok b1 t U B hd
  have hone : pairCount U B (sqlUpdate t (deleteWhere U B) (deleteSet b1.millis)) = 1 := by
    rw [pairCount_sqlUpdate U B t _ _ (isPair_deleteSet U B b1.millis)]
    unfold pairCount; rw [hrow]; rfl
  have hass := assign_of_one_row b2 _ U C B hC hu hra hone
  have hp : isPair U B r = true := isPair_of_filter_singleton t U B r hrow
  rw [hdel]
  refine ⟨rfl, ?_, ?_, ?_⟩
  · show (addUpdateCategoryBoard b2 (sqlUpdate t _ _) U C B).1 = none
    rw [hass]
  · show (addUpdateCategoryBoard b2 (sqlUpdate t _ _) U C B).2.length = t.length
    rw [hass]; simp only [sqlUpdate_length]
  · show (addUpdateCategoryBoard b2 (sqlUpdate t _ _) U C B).2.filter (isPair U B) = _
    rw [hass]
    simp only []
    rw [filter_sqlUpdate _ _ _ _ (isPair_updateSet U B C),
      filter_sqlUpdate _ _ _ _ (isPair_deleteSet U B b1.millis), hrow]
    by_cases hdw : deleteWhere U B r = true
    · have e1 : sqlUpdate [r] (deleteWhere U B) (deleteSet b1.millis)
          = [deleteSet b1.millis r] := by simp [sqlUpdate, hdw]
      have e2 : updateWhere U B (deleteSet b1.millis r) = true := by
        rw [updateWhere_eq_isPair, isPair_deleteSet]; exact hp
      rw [e1]
      simp only [sqlUpdate, List.map, e2, if_true]
      rfl
    · have e1 : sqlUpdate [r] (deleteWhere U B) (deleteSet b1.millis) = [r] := by
        simp [sqlUpdate, hdw]
      have e2 : updateWhere U B r = true := by rw [updateWhere_eq_isPair]; exact hp
      rw [e1]
      simp only [sqlUpdate, List.map, e2, if_true]
      rfl

/-- C2: on a table with exactly one row `r` for `(U, B)`, with C other than "0"
and the soft-delete, the UPDATE and its row count executed without error (the
claim's case is `r` active and a non-zero time of removal; neither is needed),
RemoveBoardFromCategory(U, B) followed by AssignBoardToCategory(U, C, B) both
succeed, the table has as many rows as before, and the pair still has exactly
one row, with the id and create_at of `r`, delete_at 0 and category_id C. -/
theorem remove_then_assign_reuses_row (b1 b2 : Backend) (t : Table) (U C B : String)
    (r : CategoryBoardRow) (hC : C ≠ "0") (hrow : t.filter (isPair U B) = [r])
    (hd : b1.deleteExecErr = none) (hu : b2.updateExecErr = none)
    (hra : b2.rowsAffectedErr = none) :
    (deleteUserCategoryBoard b1 t U B).1 = none ∧
    (addUpdateCategoryBoard b2 (deleteUserCategoryBoard b1 t U B).2 U C B).1 = none ∧
    (addUpdateCategoryBoard b2 (deleteUserCategoryBoard b1 t U B).2 U C B).2.length
      = t.length ∧
    ∃ r2 : CategoryBoardRow,
      (addUpdateCategoryBoard b2 (deleteUserCategoryBoard b1 t U B).2 U C B).2.filter
        (isPair U B) = [r2] ∧
      r2.id = r.id ∧ r2.create_at = r.create_at ∧ r2.delete_at = 0 ∧ r2.category_id = C := by
  obtain ⟨h1, h2, h3, h4⟩ := remove_then_assign_pair_row b1 b2 t U C B r hC hrow hd hu hra
  exact ⟨h1, h2, h3, _, h4, rfl, rfl, rfl, rfl⟩

theorem remove_then_assign_reuses_row_witness :
    (addUpdateCategoryBoard (Backend.ok 300 "n2")
      (deleteUserCategoryBoard (Backend.ok 200 "n1") oneRowTable "u1" "b1").2
      "u1" "c3" "b1").2.length = oneRowTable.length :=
  (remove_then_assign_reuses_row (Backend.ok 200 "n1") (Backend.ok 300 "n2") oneRowTable
    "u1" "c3" "b1"
    { id := "r1", user_id := "u1", category_id := "c1", board_id := "b1",
      create_at := 10, update_at := 10, delete_at := 0 }
    (by decide) (by decide) rfl rfl rfl).2.2.1

/-- C3 (amended): under the same conditions the reused row keeps the update_at
it had before the two calls; neither call writes that column, only category_id
and delete_at carry the new assignment. -/
theorem remove_then_assign_keeps_update_at (b1 b2 : Backend) (t : Table) (U C B : String)
    (r : CategoryBoardRow) (hC : C ≠ "0") (hrow : t.filter (isPair U B) = [r])
    (hd : b1.deleteExecErr = none) (hu : b2.updateExecErr = none)
    (hra : b2.rowsAffectedErr = none) :
    ∃ r2 : CategoryBoardRow,
      (addUpdateCategoryBoard b2 (deleteUserCategoryBoard b1 t U B).2 U C B).2.filter
        (isPair U B) = [r2] ∧
      r2.update_at = r.update_at ∧ r2.category_id = C ∧ r2.delete_at = 0 := by
  obtain ⟨-, -, -, h4⟩ := remove_then_assign_pair_row b1 b2 t U C B r hC hrow hd hu hra
  exact ⟨_, h4, rfl, rfl, rfl⟩

theorem remove_then_assign_keeps_update_at_witness :
    ∃ r2 : CategoryBoardRow,
      (addUpdateCategoryBoard (Backend.ok 300 "n2")
        (deleteUserCategoryBoard (Backend.ok 200 "n1") oneRowTable "u1" "b1").2
        "u1" "c3" "b1").2.filter (isPair "u1" "b1") = [r2] ∧
      r2.update_at = 10 ∧ r2.category_id = "c3" ∧ r2.delete_at = 0 :=
  remove_then_assign_keeps_update_at (Backend.ok 200 "n1") (Backend.ok 300 "n2") oneRowTable
    "u1" "c3" "b1"
    { id := "r1", user_id := "u1", category_id := "c1", board_id := "b1",
      create_at := 10, update_at := 10, delete_at := 0 }
    (by decide) (by decide) rfl rfl rfl

/-- C3 as stated fails: the row of ("u1", "b1") has update_at 10; after a remove
at time 200 and an assign to "c3" at time 300, both successful, its update_at is
still 10, not 300. -/
theorem update_at_not_refreshed :
    (deleteUserCategoryBoard (Backend.ok 200 "n1") oneRowTable "u1" "b1").1 = none ∧
    (addUpdateCategoryBoard (Backend.ok 300 "n2")
      (deleteUserCategoryBoard (Backend.ok 200 "n1") oneRowTable "u1" "b1").2
      "u1" "c3" "b1")
      = (none,
        [ { id := "r0", user_id := "u2", category_id := "c7", board_id := "b1",
            create_at := 5, update_at := 5, delete_at := 0 },
          { id := "r1", user_id := "u1", category_id := "c3", board_id := "b1",
            create_at := 10, update_at := 10, delete_at := 0 },
          { id := "r2", user_id := "u1", category_id := "c1", board_id := "b2",
            create_at := 20, update_at := 20, delete_at := 0 } ]) ∧
    (Backend.ok 300 "n2").millis = 300 ∧ (10 : Int) ≠ 300 := by
  decide

/-! ## Removing twice -/

theorem isActivePair_funext (U B : String) : deleteWhere U B = isActivePair U B :=
  funext (deleteWhere_eq_isActivePair U B)

/-- After a soft-delete at a non-zero time no row of the pair is active. -/
theorem filter_active_after_delete (t : Table) (U B : String) (m : Int) (hm : m ≠ 0) :
    (sqlUpdate t (deleteWhere U B) (deleteSet m)).filter (deleteWhere U B) = [] := by
  rw [List.filter_eq_nil_iff]
  intro r hr
  simp only [sqlUpdate, List.mem_map] at hr
  obtain ⟨r0, -, hr0⟩ := hr
  by_cases hc : deleteWhere U B r0 = true
  · rw [if_pos hc] at hr0
    rw [← hr0]
    simp [deleteWhere, deleteSet, hm]
  · rw [if_neg hc] at hr0
    rw [← hr0]; exact hc

/-- A soft-delete at a non-zero time turns every active row of the pair into a
soft-deleted one and leaves the soft-deleted ones in place. -/
theorem deletedCount_after_delete (t : Table) (U B : String) (m : Int) (hm : m ≠ 0) :
    deletedCount U B (sqlUpdate t (deleteWhere U B) (deleteSet m))
      = deletedCount U B t + activeCount U B t := by
  unfold deletedCount activeCount
  induction t with
  | nil => rfl
  | cons r t ih =>
    have hcons : sqlUpdate (r :: t) (deleteWhere U B) (deleteSet m)
        = (if deleteWhere U B r = true then deleteSet m r else r)
          :: sqlUpdate t (deleteWhere U B) (deleteSet m) := rfl
    rw [hcons]
    by_cases hp : isPair U B r = true
    · by_cases ha : r.delete_at = 0
      · have h1 : deleteWhere U B r = true := by
          rw [deleteWhere_eq_isActivePair]; simp [isActivePair, hp, ha]
        have h2 : isDeletedPair U B (deleteSet m r) = true := by
          simp only [isDeletedPair, isPair_deleteSet, hp, Bool.true_and]
          simp [deleteSet, hm]
        have h3 : ¬ isDeletedPair U B r = true := by simp [isDeletedPair, ha]
        have h4 : isActivePair U B r = true := by simp [isActivePair, hp, ha]
        rw [if_pos h1, List.filter_cons_of_pos h2, List.filter_cons_of_neg h3,
          List.filter_cons_of_pos h4]
        simp only [List.length_cons]
        omega
      · have h1 : ¬ deleteWhere U B r = true := by
          rw [deleteWhere_eq_isActivePair]; simp [isActivePair, ha]
        have h3 : isDeletedPair U B r = true := by simp [isDeletedPair, hp, ha]
        have h4 : ¬ isActivePair U B r = true := by simp [isActivePair, ha]
        rw [if_neg h1, List.filter_cons_of_pos h3, List.filter_cons_of_pos h3,
          List.filter_cons_of_neg h4]
        simp only [List.length_cons]
        omega
    · have hp2 : isPair U B r = false := by simpa using hp
      have h1 : ¬ deleteWhere U B r = true := by
        rw [deleteWhere_eq_isActivePair]; simp [isActivePair, hp2]
      have h3 : ¬ isDeletedPair U B r = true := by simp [isDeletedPair, hp2]
      have h4 : ¬ isActivePair U B r = true := by simp [isActivePair, hp2]
      rw [if_neg h1, List.filter_cons_of_neg h3, List.filter_cons_of_neg h3,
        List.filter_cons_of_neg h4]
      exact ih

/-- C4 (amended): with backends that do not fail and a non-zero time of the
first call, RemoveBoardFromCategory(U, B) called twice succeeds both times, the
second call returns the table exactly as the first left it, and when the table
initially held exactly one active row for `(U, B)` it afterwards holds no active
row for the pair and one more soft-deleted row for the pair than before. -/
theorem remove_twice (b1 b2 : Backend) (t : Table) (U B : String)
    (hb1 : b1.healthy) (hb2 : b2.healthy) (hm : b1.millis ≠ 0) :
    (deleteUserCategoryBoard b1 t U B).1 = none ∧
    (deleteUserCategoryBoard b2 (deleteUserCategoryBoard b1 t U B).2 U B).1 = none ∧
    (deleteUserCategoryBoard b2 (deleteUserCategoryBoard b1 t U B).2 U B).2
      = (deleteUserCategoryBoard b1 t U B).2 ∧
    (activeCount U B t = 1 →
      activeCount U B (deleteUserCategoryBoard b2 (deleteUserCategoryBoard b1 t U B).2 U B).2 = 0 ∧
      deletedCount U B (deleteUserCategoryBoard b2 (deleteUserCategoryBoard b1 t U B).2 U B).2
        = deletedCount U B t + 1) := by
  have hd1 := delete_of_exec_ok b1 t U B hb1.2.2.2
  have hnil := filter_active_after_delete t U B b1.millis hm
  have hd2 : deleteUserCategoryBoard b2 (deleteUserCategoryBoard b1 t U B).2 U B
      = (none, (deleteUserCategoryBoard b1 t U B).2) := by
    rw [delete_of_exec_ok b2 _ U B hb2.2.2.2, hd1]
    simp only [sqlUpdate_of_filter_nil _ _ _ hnil]
  rw [hd2, hd1]
  refine ⟨rfl, rfl, rfl, ?_⟩
  intro hone
  constructor
  · show activeCount U B (sqlUpdate t (deleteWhere U B) (deleteSet b1.millis)) = 0
    unfold activeCount
    rw [← isActivePair_funext, hnil]; rfl
  · show deletedCount U B (sqlUpdate t (deleteWhere U B) (deleteSet b1.millis)) = _
    rw [deletedCount_after_delete t U B b1.millis hm, hone]

theorem remove_twice_witness :
    (Backend.ok 200 "n1").healthy ∧ (Backend.ok 300 "n2").healthy ∧
    (Backend.ok 200 "n1").millis ≠ 0 ∧
    (deleteUserCategoryBoard (Backend.ok 300 "n2")
      (deleteUserCategoryBoard (Backend.ok 200 "n1") oneRowTable "u1" "b1").2 "u1" "b1").2
      = (deleteUserCategoryBoard (Backend.ok 200 "n1") oneRowTable "u1" "b1").2 :=
  ⟨⟨rfl, rfl, rfl, rfl⟩, ⟨rfl, rfl, rfl, rfl⟩, by decide,
    (remove_twice (Backend.ok 200 "n1") (Backend.ok 300 "n2") oneRowTable "u1" "b1"
      ⟨rfl, rfl, rfl, rfl⟩ ⟨rfl, rfl, rfl, rfl⟩ (by decide)).2.2.1⟩

/-- C4 as stated fails: a table with one active and one already soft-deleted row
of ("u1", "b1") holds exactly one active row for the pair, and after two
removals it holds two soft-deleted rows for the pair, not one. -/
theorem two_tombstones_after_second_removal :
    activeCount "u1" "b1" mixedTable = 1 ∧
    (deleteUserCategoryBoard (Backend.ok 200 "n1") mixedTable "u1" "b1").1 = none ∧
    (deleteUserCategoryBoard (Backend.ok 300 "n2")
      (deleteUserCategoryBoard (Backend.ok 200 "n1") mixedTable "u1" "b1").2 "u1" "b1").1
      = none ∧
    deletedCount "u1" "b1"
      (deleteUserCategoryBoard (Backend.ok 300 "n2")
        (deleteUserCategoryBoard (Backend.ok 200 "n1") mixedTable "u1" "b1").2 "u1" "b1").2
      = 2 := by
  decide

/-! ## Reading board IDs -/

theorem categoryBoardsFromRowsLoop_healthy (q : QueryBackend) (hq : ∀ i, q.scanErr i = none)
    (rows : List String) (i : Nat) (blocks : List String) :
    categoryBoardsFromRowsLoop q i rows blocks = .ok (blocks ++ rows) := by
  induction rows generalizing i blocks with
  | nil => simp [categoryBoardsFromRowsLoop]
  | cons x rest ih =>
    simp only [categoryBoardsFromRowsLoop, hq i]
    rw [ih]; simp

/-- On a backend that answers the query and decodes every row, the lookup
returns the board IDs of the active rows of the category, in table order. -/
theorem getCategoryBoardAttributes_healthy (q : QueryBackend) (hq : q.healthy) (t : Table)
    (c : String) :
    getCategoryBoardAttributes q t c = .ok (sqlSelectBoardID t (selectWhere c)) := by
  unfold getCategoryBoardAttributes categoryBoardsFromRows
  rw [hq.1]
  simp only []
  rw [categoryBoardsFromRowsLoop_healthy q hq.2]; simp

theorem count_sqlSelectBoardID (t : Table) (c B : String) :
    List.count B (sqlSelectBoardID t (selectWhere c)) = (t.filter (selectsBoard c B)).length := by
  unfold sqlSelectBoardID
  induction t with
  | nil => rfl
  | cons r t ih =>
    by_cases hs : selectWhere c r = true
    · by_cases hb : r.board_id = B
      · have h2 : selectsBoard c B r = true := by simp [selectsBoard, hs, hb]
        rw [List.filter_cons_of_pos hs, List.filter_cons_of_pos h2, List.map_cons,
          List.count_cons, ih]
        simp [hb]
      · have h2 : ¬ selectsBoard c B r = true := by simp [selectsBoard, hb]
        rw [List.filter_cons_of_pos hs, List.filter_cons_of_neg h2, List.map_cons,
          List.count_cons, ih]
        simp [hb]
    · have h2 : ¬ selectsBoard c B r = true := by simp [selectsBoard, hs]
      rw [List.filter_cons_of_neg hs, List.filter_cons_of_neg h2, ih]

theorem length_filter_split (t : Table) (p q : CategoryBoardRow → Bool) :
    (t.filter q).length
      = ((t.filter p).filter q).length + ((t.filter (fun r => !p r)).filter q).length := by
  induction t with
  | nil => rfl
  | cons r t ih =>
    by_cases hp : p r = true <;> by_cases hq : q r = true <;>
      simp [List.filter_cons, hp, hq, ih] <;> omega

/-! ## The rows of a pair and the other rows after a successful assignment -/

theorem filter_not_pair_sqlUpdate (t : Table) (U B : String)
    (f : CategoryBoardRow → CategoryBoardRow) (hf : ∀ r, isPair U B (f r) = isPair U B r) :
    (sqlUpdate t (updateWhere U B) f).filter (fun r => !isPair U B r)
      = t.filter (fun r => !isPair U B r) := by
  rw [filter_sqlUpdate t _ (fun r => !isPair U B r) f (by intro r; simp [hf])]
  apply sqlUpdate_of_filter_nil
  rw [List.filter_filter, List.filter_eq_nil_iff]
  intro r _
  simp [updateWhere_eq_isPair]

theorem filter_not_pair_after_assign (b : Backend) (t : Table) (U C B : String)
    (hC : C ≠ "0") (hok : (addUpdateCategoryBoard b t U C B).1 = none) :
    (addUpdateCategoryBoard b t U C B).2.filter (fun r => !isPair U B r)
      = t.filter (fun r => !isPair U B r) := by
  rcases assign_success_cases b t U C B hC hok with ⟨-, h⟩ | ⟨-, h⟩
  · rw [h, List.filter_append]
    have : isPair U B (newRow b U C B) = true := (isPair_newRow b U C B U B).2 ⟨rfl, rfl⟩
    simp [List.filter_cons, this]
  · rw [h]; exact filter_not_pair_sqlUpdate t U B _ (isPair_updateSet U B C)

theorem filter_pair_after_assign (b : Backend) (t : Table) (U C B : String)
    (hC : C ≠ "0") (hok : (addUpdateCategoryBoard b t U C B).1 = none) :
    ∃ x : CategoryBoardRow, (addUpdateCategoryBoard b t U C B).2.filter (isPair U B) = [x] ∧
      x.category_id = C ∧ x.delete_at = 0 ∧ x.board_id = B := by
  rcases assign_success_cases b t U C B hC hok with ⟨h0, h⟩ | ⟨h1, h⟩
  · refine ⟨newRow b U C B, ?_, rfl, rfl, rfl⟩
    have hp : isPair U B (newRow b U C B) = true := (isPair_newRow b U C B U B).2 ⟨rfl, rfl⟩
    have hnil : t.filter (isPair U B) = [] := List.length_eq_zero.1 h0
    rw [h, List.filter_append, hnil]
    simp [List.filter_cons, hp]
  · obtain ⟨r, hr⟩ := filter_eq_singleton_of_length_one t (isPair U B) h1
    have hp : isPair U B r = true := isPair_of_filter_singleton t U B r hr
    have hb : r.board_id = B := by
      simp only [isPair, Bool.and_eq_true, decide_eq_true_eq] at hp; exact hp.2
    refine ⟨updateSet C r, ?_, rfl, rfl, hb⟩
    rw [h, filter_sqlUpdate _ _ _ _ (isPair_updateSet U B C), hr]
    have e2 : updateWhere U B r = true := by rw [updateWhere_eq_isPair]; exact hp
    simp only [sqlUpdate, List.map, e2, if_true]

/-! ## Moving a board from one category to another -/

/-- Rows outside the pair contribute nothing to the lookup of board `B` in
category `c` when every active row filing `B` under `c` belongs to user `U`. -/
theorem no_foreign_rows (t : Table) (U B c : String)
    (h : ∀ r ∈ t, r.board_id = B → r.delete_at = 0 → r.category_id = c → r.user_id = U) :
    ((t.filter (fun r => !isPair U B r)).filter (selectsBoard c B)).length = 0 := by
  rw [List.length_eq_zero, List.filter_eq_nil_iff]
  intro r hr
  obtain ⟨hmem, hnp⟩ := List.mem_filter.1 hr
  intro hsel
  simp only [selectsBoard, selectWhere, Bool.and_eq_true, decide_eq_true_eq] at hsel
  obtain ⟨⟨hc, hd⟩, hb⟩ := hsel
  have hu := h r hmem hb hd hc
  simp [isPair, hu, hb] at hnp

/-- C1 (amended): for distinct categories C1 and C2, both other than "0", on a
table where no active row of another user files board B under C1 or C2: when
AssignBoardToCategory(U, C1, B) and then AssignBoardToCategory(U, C2, B) both
succeed, GetCategoryBoardIDs(C1) returns a list without B and
GetCategoryBoardIDs(C2) returns a list holding B exactly once (the lookups run
on a backend that answers them). -/
theorem reassign_moves_board (b1 b2 : Backend) (q1 q2 : QueryBackend) (t : Table)
    (U B C1 C2 : String) (hne : C1 ≠ C2) (h1 : C1 ≠ "0") (h2 : C2 ≠ "0")
    (hs1 : (addUpdateCategoryBoard b1 t U C1 B).1 = none)
    (hs2 : (addUpdateCategoryBoard b2 (addUpdateCategoryBoard b1 t U C1 B).2 U C2 B).1 = none)
    (hother : ∀ r ∈ t, r.board_id = B → r.delete_at = 0 →
      (r.category_id = C1 ∨ r.category_id = C2) → r.user_id = U)
    (hq1 : q1.healthy) (hq2 : q2.healthy) :
    ∃ ids1 ids2 : List String,
      getCategoryBoardAttributes q1
        (addUpdateCategoryBoard b2 (addUpdateCategoryBoard b1 t U C1 B).2 U C2 B).2 C1
        = .ok ids1 ∧ B ∉ ids1 ∧
      getCategoryBoardAttributes q2
        (addUpdateCategoryBoard b2 (addUpdateCategoryBoard b1 t U C1 B).2 U C2 B).2 C2
        = .ok ids2 ∧ List.count B ids2 = 1 := by
  have hnot : (addUpdateCategoryBoard b2 (addUpdateCategoryBoard b1 t U C1 B).2 U C2 B).2.filter
      (fun r => !isPair U B r) = t.filter (fun r => !isPair U B r) := by
    rw [filter_not_pair_after_assign b2 _ U C2 B h2 hs2,
      filter_not_pair_after_assign b1 t U C1 B h1 hs1]
  obtain ⟨x, hx, hxc, hxd, hxb⟩ := filter_pair_after_assign b2 _ U C2 B h2 hs2
  have hcount : ∀ c : String, (c = C1 ∨ c = C2) →
      List.count B (sqlSelectBoardID
        (addUpdateCategoryBoard b2 (addUpdateCategoryBoard b1 t U C1 B).2 U C2 B).2
        (selectWhere c)) = ([x].filter (selectsBoard c B)).length := by
    intro c hc
    rw [count_sqlSelectBoardID, length_filter_split _ (isPair U B) (selectsBoard c B), hx, hnot,
      no_foreign_rows t U B c (fun r hr hb hd hcat => hother r hr hb hd (by
        rcases hc with rfl | rfl
        · exact Or.inl hcat
        · exact Or.inr hcat))]
    rfl
  refine ⟨_, _, getCategoryBoardAttributes_healthy q1 hq1 _ C1, ?_,
    getCategoryBoardAttributes_healthy q2 hq2 _ C2, ?_⟩
  · apply List.count_eq_zero.1
    rw [hcount C1 (Or.inl rfl)]
    have : ¬ selectsBoard C1 B x = true := by
      simp only [selectsBoard, selectWhere, hxc, Bool.and_eq_true, decide_eq_true_eq]
      intro h; exact hne h.1.1.symm
    rw [List.filter_cons_of_neg this]; rfl
  · rw [hcount C2 (Or.inr rfl)]
    have : selectsBoard C2 B x = true := by
      simp [selectsBoard, selectWhere, hxc, hxd, hxb]
    rw [List.filter_cons_of_pos this]; rfl

theorem reassign_moves_board_witness :
    getCategoryBoardAttributes QueryBackend.ok
      (addUpdateCategoryBoard (Backend.ok 300 "n2")
        (addUpdateCategoryBoard (Backend.ok 200 "n1") oneRowTable "u1" "c3" "b1").2
        "u1" "c4" "b1").2 "c3" = .ok [] ∧
    ∃ ids1 ids2 : List String,
      getCategoryBoardAttributes QueryBackend.ok
        (addUpdateCategoryBoard (Backend.ok 300 "n2")
          (addUpdateCategoryBoard (Backend.ok 200 "n1") oneRowTable "u1" "c3" "b1").2
          "u1" "c4" "b1").2 "c3" = .ok ids1 ∧ "b1" ∉ ids1 ∧
      getCategoryBoardAttributes QueryBackend.ok
        (addUpdateCategoryBoard (Backend.ok 300 "n2")
          (addUpdateCategoryBoard (Backend.ok 200 "n1") oneRowTable "u1" "c3" "b1").2
          "u1" "c4" "b1").2 "c4" = .ok ids2 ∧ List.count "b1" ids2 = 1 :=
  ⟨by decide,
    reassign_moves_board (Backend.ok 200 "n1") (Backend.ok 300 "n2") QueryBackend.ok
      QueryBackend.ok oneRowTable "u1" "b1" "c3" "c4" (by decide) (by decide) (by decide)
      (by decide) (by decide) (by decide) ⟨rfl, fun _ => rfl⟩ ⟨rfl, fun _ => rfl⟩⟩

/-- C1 as stated fails: user "u2" already files board "b1" under "c1"; after
"u1" assigns "b1" to "c1" and then to "c2", both calls succeeding, the lookup of
"c1" still returns "b1". -/
theorem reassign_leaves_board_of_other_user :
    ("c1" : String) ≠ "c2" ∧ ("c1" : String) ≠ "0" ∧ ("c2" : String) ≠ "0" ∧
    (addUpdateCategoryBoard (Backend.ok 200 "n1") otherUserTable "u1" "c1" "b1").1 = none ∧
    (addUpdateCategoryBoard (Backend.ok 300 "n2")
      (addUpdateCategoryBoard (Backend.ok 200 "n1") otherUserTable "u1" "c1" "b1").2
      "u1" "c2" "b1").1 = none ∧
    getCategoryBoardAttributes QueryBackend.ok
      (addUpdateCategoryBoard (Backend.ok 300 "n2")
        (addUpdateCategoryBoard (Backend.ok 200 "n1") otherUserTable "u1" "c1" "b1").2
        "u1" "c2" "b1").2 "c1" = .ok ["b1"] ∧
    "b1" ∈ ["b1"] := by
  decide

/-! ## Listing the categories of a user -/

/-- The loop either runs through, appending one entry per category in order,
each entry holding the category and the result of its lookup, or stops at the
first lookup that fails and returns that lookup's error. -/
theorem getUserCategoryBoardsLoop_spec (qs : Nat → QueryBackend) (t : Table)
    (cs : List Category) (i : Nat) (acc : List CategoryBoards) :
    (∃ res : List CategoryBoards,
        getUserCategoryBoardsLoop qs t i cs acc = .ok (acc ++ res) ∧ res.length = cs.length ∧
        ∀ (k : Nat) (c : Category), cs[k]? = some c →
          ∃ ids, getCategoryBoardAttributes (qs (i + k)) t c.ID = .ok ids ∧
            res[k]? = some { Category := c, BoardIDs := ids }) ∨
    (∃ (k : Nat) (c : Category) (e : StoreError), cs[k]? = some c ∧
        getCategoryBoardAttributes (qs (i + k)) t c.ID = .error e ∧
        (∀ (j : Nat) (c2 : Category), j < k → cs[j]? = some c2 →
          ∃ ids, getCategoryBoardAttributes (qs (i + j)) t c2.ID = .ok ids) ∧
        getUserCategoryBoardsLoop qs t i cs acc = .error e) := by
  induction cs generalizing i acc with
  | nil =>
    left
    exact ⟨[], by simp [getUserCategoryBoardsLoop], rfl, by intro k c h; simp at h⟩
  | cons c0 rest ih =>
    cases h0 : getCategoryBoardAttributes (qs i) t c0.ID with
    | error e =>
      right
      refine ⟨0, c0, e, List.getElem?_cons_zero, h0, ?_, ?_⟩
      · intro j c2 hj _; omega
      · simp only [getUserCategoryBoardsLoop, h0]
    | ok ids0 =>
      have hstep : getUserCategoryBoardsLoop qs t i (c0 :: rest) acc
          = getUserCategoryBoardsLoop qs t (i + 1) rest
              (acc ++ [{ Category := c0, BoardIDs := ids0 }]) := by
        simp only [getUserCategoryBoardsLoop, h0]
      rcases ih (i + 1) (acc ++ [{ Category := c0, BoardIDs := ids0 }]) with
        ⟨res, hres, hlen, hent⟩ | ⟨k, c, e, hk, herr, hbefore, hloop⟩
      · left
        refine ⟨{ Category := c0, BoardIDs := ids0 } :: res, ?_, by simp [hlen], ?_⟩
        · rw [hstep, hres]; simp
        · intro k c hk
          cases k with
          | zero =>
            simp only [List.getElem?_cons_zero, Option.some.injEq] at hk
            subst hk
            exact ⟨ids0, h0, List.getElem?_cons_zero⟩
          | succ k =>
            simp only [List.getElem?_cons_succ] at hk
            obtain ⟨ids, hids, hr⟩ := hent k c hk
            have hidx : i + (k + 1) = i + 1 + k := by omega
            exact ⟨ids, by rw [hidx]; exact hids, by simpa using hr⟩
      · right
        have hidx : i + (k + 1) = i + 1 + k := by omega
        refine ⟨k + 1, c, e, by simpa using hk, by rw [hidx]; exact herr, ?_, ?_⟩
        · intro j c2 hj hc2
          cases j with
          | zero =>
            simp only [List.getElem?_cons_zero, Option.some.injEq] at hc2
            subst hc2
            exact ⟨ids0, h0⟩
          | succ j =>
            simp only [List.getElem?_cons_succ] at hc2
            obtain ⟨ids, hids⟩ := hbefore j c2 (by omega) hc2
            have hidx2 : i + (j + 1) = i + 1 + j := by omega
            exact ⟨ids, by rw [hidx2]; exact hids⟩
        · rw [hstep, hloop]

/-- C10: for every user and team, ListUserCategoryBoards returns the error of a
failed category lookup; when the lookup returns `cs` and every board-ID lookup
succeeds it returns exactly one entry per category, the k-th entry pairing the
k-th category with the result of its GetCategoryBoardIDs; when a board-ID lookup
fails (all earlier ones having succeeded) it returns that error and no list. -/
theorem getUserCategoryBoards_spec
    (getUserCategories : String → String → Except StoreError (List Category))
    (qs : Nat → QueryBackend) (t : Table) (U T : String) :
    (∀ e : StoreError, getUserCategories U T = .error e →
      getUserCategoryBoards getUserCategories qs t U T = .error e) ∧
    (∀ cs : List Category, getUserCategories U T = .ok cs →
      (∀ (k : Nat) (c : Category), cs[k]? = some c →
        ∃ ids, getCategoryBoardAttributes (qs k) t c.ID = .ok ids) →
      ∃ res : List CategoryBoards,
        getUserCategoryBoards getUserCategories qs t U T = .ok res ∧
        res.length = cs.length ∧
        ∀ (k : Nat) (c : Category), cs[k]? = some c →
          ∃ ids, getCategoryBoardAttributes (qs k) t c.ID = .ok ids ∧
            res[k]? = some { Category := c, BoardIDs := ids }) ∧
    (∀ (cs : List Category) (k : Nat) (c : Category) (e : StoreError),
      getUserCategories U T = .ok cs → cs[k]? = some c →
      getCategoryBoardAttributes (qs k) t c.ID = .error e →
      (∀ (j : Nat) (c2 : Category), j < k → cs[j]? = some c2 →
        ∃ ids, getCategoryBoardAttributes (qs j) t c2.ID = .ok ids) →
      getUserCategoryBoards getUserCategories qs t U T = .error e) := by
  refine ⟨?_, ?_, ?_⟩
  · intro e he
    unfold getUserCategoryBoards; rw [he]
  · intro cs hcs hall
    have hrun : getUserCategoryBoards getUserCategories qs t U T
        = getUserCategoryBoardsLoop qs t 0 cs [] := by
      unfold getUserCategoryBoards; rw [hcs]
    rw [hrun]
    rcases getUserCategoryBoardsLoop_spec qs t cs 0 [] with
      ⟨res, hres, hlen, hent⟩ | ⟨k, c, e, hk, herr, -, -⟩
    · refine ⟨res, by simpa using hres, hlen, ?_⟩
      intro k c hk
      obtain ⟨ids, hids, hr⟩ := hent k c hk
      exact ⟨ids, by simpa using hids, hr⟩
    · obtain ⟨ids, hids⟩ := hall k c hk
      rw [Nat.zero_add, hids] at herr
      exact absurd herr (by simp)
  · intro cs k c e hcs hk herr hbefore
    have hrun : getUserCategoryBoards getUserCategories qs t U T
        = getUserCategoryBoardsLoop qs t 0 cs [] := by
      unfold getUserCategoryBoards; rw [hcs]
    rw [hrun]
    rcases getUserCategoryBoardsLoop_spec qs t cs 0 [] with
      ⟨res, -, -, hent⟩ | ⟨k2, c2, e2, hk2, herr2, hbefore2, hloop⟩
    · obtain ⟨ids, hids, -⟩ := hent k c hk
      rw [Nat.zero_add, herr] at hids
      exact absurd hids (by simp)
    · rw [Nat.zero_add] at herr2
      rcases Nat.lt_trichotomy k k2 with hlt | heq | hgt
      · obtain ⟨ids, hids⟩ := hbefore2 k c hlt hk
        rw [Nat.zero_add, herr] at hids
        exact absurd hids (by simp)
      · subst heq
        rw [hk] at hk2
        simp only [Option.some.injEq] at hk2
        subst hk2
        rw [herr] at herr2
        simp only [Except.error.injEq] at herr2
        subst herr2
        exact hloop
      · obtain ⟨ids, hids⟩ := hbefore k2 c2 hgt hk2
        rw [herr2] at hids
        exact absurd hids (by simp)

/-- On the table `oneRowTable` the two categories come back in the order given,
each with its board IDs; a lookup that fails gives its error and no list. -/
theorem getUserCategoryBoards_example :
    getUserCategoryBoards (fun _ _ => .ok twoCategories) (fun _ => QueryBackend.ok)
      oneRowTable "u1" "t1"
      = .ok [ { Category := { ID := "c2", Name := "Archived" }, BoardIDs := [] },
              { Category := { ID := "c1", Name := "Favorites" }, BoardIDs := ["b1", "b2"] } ] ∧
    getUserCategoryBoards (fun _ _ => .ok twoCategories)
      (fun i => if i = 1 then QueryBackend.down "connection lost" else QueryBackend.ok)
      oneRowTable "u1" "t1" = .error (.backend "connection lost") := by
  decide

end Sqlstore
